import Mathlib

/-!
Shallow embedding of the Sustainability Ledger & Badge Engine of the
ThriftApp repository (src/server/storage.ts, src/server/routes.ts,
src/shared/schema.ts).

Modelling conventions:
* Database tables are Lean lists of row structures; only the columns the
  ledger/badge engine reads or writes are modelled (timestamps, captions,
  image URLs, etc. are omitted because no operation here inspects them).
* Nullable columns (every stats column has a schema default but is not
  declared NOT NULL) are `Option` fields; the TypeScript `x || 0` /
  `parseFloat(x || "0")` null-coalescing reads become `Option.getD _ 0`.
* Postgres `numeric(p,2)` columns are modelled as exact rationals `ℚ`;
  the JavaScript parseFloat/float-add/toString round trip is modelled as
  exact rational arithmetic, which agrees with the stored 2-decimal
  quantisation for in-range values (spec §4.1 numeric semantics).
  `renderScale2` below models how a `numeric(_,2)` value reads back as a
  string at scale 2.
* `gen_random_uuid()` primary keys are modelled as `String` identifiers;
  freshly generated ids are distinct, which shows up as `Nodup`
  hypotheses on the badge-catalog id column where uniqueness of the
  primary key matters.
-/

namespace ThriftApp

/-- Row of the `users` table (src/shared/schema.ts): id plus the four
sustainability stats columns read and written by the engine. -/
structure UserRec where
  id : String
  ecoPoints : Option Int
  waterSaved : Option ℚ
  carbonReduced : Option ℚ
  itemsReused : Option Int
deriving DecidableEq, Repr

/-- Row of the `posts` table restricted to the columns the engine reads:
owner, per-post contribution columns and the likes counter. -/
structure PostRec where
  userId : String
  ecoPoints : Option Int
  waterSaved : Option ℚ
  carbonReduced : Option ℚ
  likesCount : Option Int
deriving DecidableEq, Repr

/-- Row of the `badges` catalog table. -/
structure BadgeRec where
  id : String
  name : String
  description : String
  icon : String
  requirement : Option String
deriving DecidableEq, Repr

/-- Row of the `user_badges` award table: the (user, badge) fact. -/
structure UserBadgeRec where
  userId : String
  badgeId : String
deriving DecidableEq, Repr

/-- The database state the engine touches. -/
structure DB where
  users : List UserRec
  posts : List PostRec
  badges : List BadgeRec
  userBadges : List UserBadgeRec
deriving DecidableEq, Repr

/-- Input to `createPost` (`InsertPost` in src/shared/schema.ts): the
contribution fields are optional; an absent field takes the column
default 0 on insert. -/
structure InsertPost where
  userId : String
  ecoPoints : Option Int
  waterSaved : Option ℚ
  carbonReduced : Option ℚ
deriving DecidableEq, Repr

/-- The row actually inserted by `db.insert(posts).values(post)` : absent
contribution columns take the schema defaults (0), `likesCount` takes its
default 0. -/
def mkPost (p : InsertPost) : PostRec :=
  { userId := p.userId
    ecoPoints := some (p.ecoPoints.getD 0)
    waterSaved := some (p.waterSaved.getD 0)
    carbonReduced := some (p.carbonReduced.getD 0)
    likesCount := some 0 }

/-- `DatabaseStorage.getUser` (storage.ts line 58): `select … where id = _`;
returns the first (unique, by primary key) matching row. -/
def getUser (db : DB) (id : String) : Option UserRec :=
  db.users.find? (fun u => u.id == id)

/-- The optional-field stats record accepted by `updateUserStats`
(storage.ts line 78): only the fields present in the object are written. -/
structure StatsPatch where
  ecoPoints : Option Int := none
  waterSaved : Option ℚ := none
  carbonReduced : Option ℚ := none
  itemsReused : Option Int := none
deriving DecidableEq, Repr

/-- Spreading `{...stats}` into the update: a present field overwrites the
column, an absent one leaves it unchanged. -/
def applyPatch (u : UserRec) (s : StatsPatch) : UserRec :=
  { u with
    ecoPoints := match s.ecoPoints with | some v => some v | none => u.ecoPoints
    waterSaved := match s.waterSaved with | some v => some v | none => u.waterSaved
    carbonReduced := match s.carbonReduced with | some v => some v | none => u.carbonReduced
    itemsReused := match s.itemsReused with | some v => some v | none => u.itemsReused }

/-- `DatabaseStorage.updateUserStats` (storage.ts lines 78-86):
`update users set {...stats} where id = userId` (the `updatedAt`
timestamp column is not modelled). -/
def updateUserStats (db : DB) (userId : String) (stats : StatsPatch) : DB :=
  { db with users := db.users.map (fun u => if u.id == userId then applyPatch u stats else u) }

/-- `DatabaseStorage.getPostsByUser` (storage.ts lines 234-240):
`select from posts where userId = _` (ordering is irrelevant to the
engine, which only counts and sums). -/
def getPostsByUser (db : DB) (userId : String) : List PostRec :=
  db.posts.filter (fun p => p.userId == userId)

/-- `DatabaseStorage.getUserBadges` (storage.ts lines 369-384): inner join
of `user_badges` with `badges` on `badgeId = badges.id`, filtered to one
user; each award row joins with the (unique, by primary key) catalog row
carrying its `badgeId`. -/
def getUserBadges (db : DB) (userId : String) : List BadgeRec :=
  (db.userBadges.filter (fun ub => ub.userId == userId)).filterMap
    (fun ub => db.badges.find? (fun b => b.id == ub.badgeId))

/-- The `reduce` computing `totalLikes` inside the `likes_average_100`
case (storage.ts line 465). -/
def totalLikes (userPosts : List PostRec) : Int :=
  userPosts.foldl (fun sum p => sum + p.likesCount.getD 0) 0

/-- The `switch (badge.requirement)` of `checkAndAwardBadges`
(storage.ts lines 448-469) deciding `shouldAward` for one badge; the
switch has no default case, so an unrecognised (or NULL) requirement
leaves `shouldAward` at its initial `false`. -/
def shouldAward (user : UserRec) (userPosts : List PostRec) (b : BadgeRec) : Bool :=
  match b.requirement with
  | some "posts_count_50" => decide (50 ≤ userPosts.length)
  | some "posts_count_100" => decide (100 ≤ userPosts.length)
  | some "eco_points_1000" => decide (1000 ≤ user.ecoPoints.getD 0)
  | some "water_saved_200" => decide ((200 : ℚ) ≤ user.waterSaved.getD 0)
  | some "carbon_reduced_100" => decide ((100 : ℚ) ≤ user.carbonReduced.getD 0)
  | some "likes_average_100" =>
    let avgLikes : ℚ :=
      if 0 < userPosts.length then (totalLikes userPosts : ℚ) / (userPosts.length : ℚ) else 0
    decide ((100 : ℚ) ≤ avgLikes)
  | _ => false

/-- `DatabaseStorage.checkAndAwardBadges` (storage.ts lines 433-478).
The source loops over the catalog; `existingBadgeNames` is computed once
before the loop (so inserts made during the loop are not re-consulted),
and each badge that is not skipped by name and whose predicate holds gets
one award row appended.  The loop's net effect is the filtered insert
below, in catalog order. -/
def checkAndAwardBadges (db : DB) (userId : String) : DB :=
  match getUser db userId with
  | none => db
  | some user =>
    let userPosts := getPostsByUser db userId
    let existingBadgeNames := (getUserBadges db userId).map (fun b => b.name)
    let toAward := db.badges.filter
      (fun b => !(existingBadgeNames.contains b.name) && shouldAward user userPosts b)
    { db with userBadges := db.userBadges ++ toAward.map (fun b => ⟨userId, b.id⟩) }

/-- The six seeded catalog rows of `initializeBadges` (storage.ts lines
390-427), in source order.  The primary keys are generated by the store;
they are modelled as six distinct placeholder ids. -/
def defaultBadges : List BadgeRec :=
  [ ⟨"badge-1", "Eco Star", "50+ eco-friendly posts", "recycle", some "posts_count_50"⟩,
    ⟨"badge-2", "Green Icon", "1000+ eco points", "green-heart", some "eco_points_1000"⟩,
    ⟨"badge-3", "Water Saver", "200L+ water saved", "droplet", some "water_saved_200"⟩,
    ⟨"badge-4", "Trendsetter", "100+ likes average", "star", some "likes_average_100"⟩,
    ⟨"badge-5", "Thrift Champion", "100 thrift finds", "trophy", some "posts_count_100"⟩,
    ⟨"badge-6", "Planet Protector", "Save 100kg CO2", "globe", some "carbon_reduced_100"⟩ ]

/-- `DatabaseStorage.initializeBadges` (storage.ts lines 386-431): seed
the catalog with the six default rows only when it is observed empty. -/
def initializeBadges (db : DB) : DB :=
  if db.badges.isEmpty then { db with badges := db.badges ++ defaultBadges } else db

/-- `DatabaseStorage.createPost` (storage.ts lines 108-131): insert the
post row; then, if the owner exists, read the current totals, add the
contribution component-wise (null columns coalesced to 0), increment
items-reused by 1, persist via `updateUserStats`, and run the badge
evaluator on the updated state.  If the owner is missing the stats/badge
steps are silently skipped. -/
def createPost (db : DB) (post : InsertPost) : DB :=
  let db1 : DB := { db with posts := db.posts ++ [mkPost post] }
  match getUser db1 post.userId with
  | none => db1
  | some currentUser =>
    let newEcoPoints := currentUser.ecoPoints.getD 0 + post.ecoPoints.getD 0
    let newWaterSaved := currentUser.waterSaved.getD 0 + post.waterSaved.getD 0
    let newCarbonReduced := currentUser.carbonReduced.getD 0 + post.carbonReduced.getD 0
    let newItemsReused := currentUser.itemsReused.getD 0 + 1
    let db2 := updateUserStats db1 post.userId
      ⟨some newEcoPoints, some newWaterSaved, some newCarbonReduced, some newItemsReused⟩
    checkAndAwardBadges db2 post.userId

/-- Value of one decimal digit character. -/
def digitVal (c : Char) : Nat := c.toNat - 48

/-- Natural number denoted by a list of decimal digit characters. -/
def digitsVal (ds : List Char) : Nat :=
  ds.foldl (fun a c => a * 10 + digitVal c) 0

/-- JavaScript `parseInt(s)` (radix 10, as used in routes.ts line 87) on
the strings of interest: skip leading whitespace, optional sign, then the
maximal run of leading decimal digits; `none` models `NaN` (no digits). -/
def parseIntJS (s : String) : Option Int :=
  let cs := s.toList.dropWhile Char.isWhitespace
  let signed : Int × List Char :=
    match cs with
    | '-' :: r => (-1, r)
    | '+' :: r => (1, r)
    | r => (1, r)
  let ds := signed.2.takeWhile Char.isDigit
  if ds.isEmpty then none else some (signed.1 * (digitsVal ds : Int))

/-- JavaScript `parseFloat(s)` restricted to plain decimal literals
(optional sign, integer digits, optional fraction digits), which covers
every decimal string this engine produces or consumes; `none` models
`NaN`. -/
def parseFloatQ (s : String) : Option ℚ :=
  let cs := s.toList.dropWhile Char.isWhitespace
  let signed : ℚ × List Char :=
    match cs with
    | '-' :: r => (-1, r)
    | '+' :: r => (1, r)
    | r => (1, r)
  let intDigits := signed.2.takeWhile Char.isDigit
  let rest := signed.2.dropWhile Char.isDigit
  let fracDigits : List Char :=
    match rest with
    | '.' :: r => r.takeWhile Char.isDigit
    | _ => []
  if intDigits.isEmpty && fracDigits.isEmpty then none
  else some (signed.1 * ((digitsVal intDigits : ℚ) +
    (digitsVal fracDigits : ℚ) / ((10 : ℚ) ^ fracDigits.length)))

/-- Quantisation performed by storing a value into a `numeric(p,2)`
column (src/shared/schema.ts): round to a whole number of hundredths
(round-half-up, which agrees with Postgres rounding for the non-negative
values this engine stores). -/
def toHundredths (q : ℚ) : Int := ⌊q * 100 + 1 / 2⌋

/-- How a non-negative `numeric(p,2)` column value reads back as a
string: always two digits after the decimal point. -/
def renderScale2 (q : ℚ) : String :=
  let n := toHundredths q
  let whole := n / 100
  let frac := (n % 100).toNat
  toString whole ++ "." ++ (if frac < 10 then "0" ++ toString frac else toString frac)

/-- The `ecoPoints` field built by the POST /api/posts handler
(routes.ts line 87): `parseInt(req.body.ecoPoints) || 50`; an absent
field parses to NaN, and both NaN and 0 are falsy so the default 50 is
taken. -/
def routeEcoPoints (field : Option String) : Int :=
  match field with
  | none => 50
  | some s =>
    match parseIntJS s with
    | none => 50
    | some n => if n == 0 then 50 else n

/-- The `waterSaved` field built by the handler (routes.ts line 88):
`req.body.waterSaved || "2.5"`; absent and empty-string values are falsy
so the default is taken. -/
def routeWaterSaved (field : Option String) : String :=
  match field with
  | none => "2.5"
  | some s => if s == "" then "2.5" else s

/-- The `carbonReduced` field built by the handler (routes.ts line 89):
`req.body.carbonReduced || "1.2"`. -/
def routeCarbonReduced (field : Option String) : String :=
  match field with
  | none => "1.2"
  | some s => if s == "" then "1.2" else s

/-- The six requirement identifiers the `switch` in `checkAndAwardBadges`
recognises. -/
def recognizedRequirement (r : Option String) : Bool :=
  match r with
  | some s =>
    ["posts_count_50", "posts_count_100", "eco_points_1000",
     "water_saved_200", "carbon_reduced_100", "likes_average_100"].contains s
  | none => false

/-- Net effect of one `createPost` on the owner's stats row: contribution
added component-wise (null columns coalesced to 0) and items-reused
incremented by 1. -/
def addStats (u : UserRec) (p : InsertPost) : UserRec :=
  { u with
    ecoPoints := some (u.ecoPoints.getD 0 + p.ecoPoints.getD 0)
    waterSaved := some (u.waterSaved.getD 0 + p.waterSaved.getD 0)
    carbonReduced := some (u.carbonReduced.getD 0 + p.carbonReduced.getD 0)
    itemsReused := some (u.itemsReused.getD 0 + 1) }

/-- Number of award rows held by one (user, badge) pair. -/
def countAwards (db : DB) (uid bid : String) : Nat :=
  db.userBadges.countP (fun ub => ub.userId == uid && ub.badgeId == bid)

lemma applyPatch_id (u : UserRec) (s : StatsPatch) : (applyPatch u s).id = u.id := rfl

lemma users_checkAndAwardBadges (db : DB) (target : String) :
    (checkAndAwardBadges db target).users = db.users := by
  unfold checkAndAwardBadges
  split <;> rfl

lemma posts_checkAndAwardBadges (db : DB) (target : String) :
    (checkAndAwardBadges db target).posts = db.posts := by
  unfold checkAndAwardBadges
  split <;> rfl

lemma badges_checkAndAwardBadges (db : DB) (target : String) :
    (checkAndAwardBadges db target).badges = db.badges := by
  unfold checkAndAwardBadges
  split <;> rfl

lemma getUser_checkAndAwardBadges (db : DB) (target uid : String) :
    getUser (checkAndAwardBadges db target) uid = getUser db uid := by
  unfold getUser
  rw [users_checkAndAwardBadges]

lemma getUser_updateUserStats (db : DB) (target uid : String) (s : StatsPatch) :
    getUser (updateUserStats db target s) uid =
      (getUser db uid).map (fun u => if u.id == target then applyPatch u s else u) := by
  unfold getUser updateUserStats
  rw [List.find?_map]
  have hcomp :
      ((fun u : UserRec => u.id == uid) ∘
        (fun u : UserRec => if u.id == target then applyPatch u s else u))
      = (fun u : UserRec => u.id == uid) := by
    funext u
    by_cases h : u.id == target <;> simp [Function.comp, h, applyPatch_id]
  rw [hcomp]

lemma getUser_eq_id (db : DB) (uid : String) (u : UserRec)
    (h : getUser db uid = some u) : u.id = uid := by
  have := List.find?_some h
  simpa using this

/-- One `createPost` step, seen from its owner's stats row. -/
lemma getUser_createPost_self (db : DB) (p : InsertPost) (u : UserRec)
    (h : getUser db p.userId = some u) :
    getUser (createPost db p) p.userId = some (addStats u p) := by
  unfold createPost
  have h1 : getUser { db with posts := db.posts ++ [mkPost p] } p.userId = some u := h
  simp only [h1]
  rw [getUser_checkAndAwardBadges, getUser_updateUserStats, h1]
  have hid : (u.id == p.userId) = true := by
    simp [getUser_eq_id db p.userId u h]
  simp only [Option.map_some', hid, if_true]
  rfl

lemma unrecognized_requirement_never_awards (user : UserRec) (ps : List PostRec)
    (b : BadgeRec) (h : recognizedRequirement b.requirement = false) :
    shouldAward user ps b = false := by
  unfold shouldAward
  split
  all_goals first
    | rfl
    | (rename_i heq; rw [heq] at h; exact absurd h (by decide))

lemma initializeBadges_of_empty (db : DB) (h : db.badges = []) :
    initializeBadges db = { db with badges := db.badges ++ defaultBadges } := by
  unfold initializeBadges
  rw [if_pos]
  rw [h]
  rfl

lemma initializeBadges_of_nonempty (db : DB) (h : db.badges ≠ []) :
    initializeBadges db = db := by
  unfold initializeBadges
  rw [if_neg]
  simp [List.isEmpty_iff, h]

/-- C7: the `likes_average_100` predicate is false for a user with zero
posts (the guarded ternary returns average 0, so no division by zero
arises), and for a user with at least one post it holds exactly when the
rational average (sum of likesCount) / (post count) is at least 100. -/
theorem likes_average_zero_division_safety :
    (∀ (user : UserRec) (b : BadgeRec), b.requirement = some "likes_average_100" →
       shouldAward user [] b = false) ∧
    (∀ (user : UserRec) (b : BadgeRec) (ps : List PostRec),
       b.requirement = some "likes_average_100" → ps ≠ [] →
       (shouldAward user ps b = true ↔
         (100 : ℚ) ≤ (totalLikes ps : ℚ) / (ps.length : ℚ))) := by
  constructor
  · intro user b h
    have hsa : shouldAward user [] b =
        decide ((100 : ℚ) ≤
          (if 0 < ([] : List PostRec).length
            then (totalLikes [] : ℚ) / (([] : List PostRec).length : ℚ) else 0)) := by
      unfold shouldAward
      rw [h]
      rfl
    rw [hsa]
    decide
  · intro user b ps h hne
    have hlen : 0 < ps.length := List.length_pos.mpr hne
    have hsa : shouldAward user ps b =
        decide ((100 : ℚ) ≤
          (if 0 < ps.length then (totalLikes ps : ℚ) / (ps.length : ℚ) else 0)) := by
      unfold shouldAward
      rw [h]
      rfl
    rw [hsa, if_pos hlen, decide_eq_true_eq]

/-- C8: the `posts_count_50` predicate holds exactly when the user's post
count is at least 50; in particular 50 posts qualify and 49 do not. -/
theorem posts_count_50_threshold (user : UserRec) (ps : List PostRec) (b : BadgeRec)
    (h : b.requirement = some "posts_count_50") :
    shouldAward user ps b = true ↔ 50 ≤ ps.length := by
  have hsa : shouldAward user ps b = decide (50 ≤ ps.length) := by
    unfold shouldAward
    rw [h]
    rfl
  rw [hsa, decide_eq_true_eq]

/-- C8 witness: an exemplar badge with the `posts_count_50` requirement is
awarded at exactly 50 posts and refused at 49. -/
theorem posts_count_50_threshold_witness :
    shouldAward ⟨"u", some 0, some 0, some 0, some 0⟩
        (List.replicate 50 ⟨"u", some 0, some 0, some 0, some 0⟩)
        ⟨"b", "Eco Star", "", "", some "posts_count_50"⟩ = true ∧
    shouldAward ⟨"u", some 0, some 0, some 0, some 0⟩
        (List.replicate 49 ⟨"u", some 0, some 0, some 0, some 0⟩)
        ⟨"b", "Eco Star", "", "", some "posts_count_50"⟩ = false := by
  constructor
  · exact (posts_count_50_threshold ⟨"u", some 0, some 0, some 0, some 0⟩
      (List.replicate 50 ⟨"u", some 0, some 0, some 0, some 0⟩)
      ⟨"b", "Eco Star", "", "", some "posts_count_50"⟩ rfl).mpr (by decide)
  · have h := posts_count_50_threshold ⟨"u", some 0, some 0, some 0, some 0⟩
      (List.replicate 49 ⟨"u", some 0, some 0, some 0, some 0⟩)
      ⟨"b", "Eco Star", "", "", some "posts_count_50"⟩ rfl
    have h2 : ¬ (50 ≤ (List.replicate 49
        (⟨"u", some 0, some 0, some 0, some 0⟩ : PostRec)).length) := by decide
    cases hb : shouldAward ⟨"u", some 0, some 0, some 0, some 0⟩
        (List.replicate 49 ⟨"u", some 0, some 0, some 0, some 0⟩)
        ⟨"b", "Eco Star", "", "", some "posts_count_50"⟩
    · rfl
    · exact absurd (h.mp hb) h2
/-- C7 witness: the zero-post case refuses the Trendsetter badge, and a
single post with 100 likes satisfies the average predicate. -/
theorem likes_average_zero_division_safety_witness :
    shouldAward ⟨"u", some 0, some 0, some 0, some 0⟩ []
        ⟨"b", "Trendsetter", "", "", some "likes_average_100"⟩ = false ∧
    shouldAward ⟨"u", some 0, some 0, some 0, some 0⟩ [⟨"u", none, none, none, some 100⟩]
        ⟨"b", "Trendsetter", "", "", some "likes_average_100"⟩ = true := by
  constructor
  · exact likes_average_zero_division_safety.1 ⟨"u", some 0, some 0, some 0, some 0⟩
      ⟨"b", "Trendsetter", "", "", some "likes_average_100"⟩ rfl
  · exact (likes_average_zero_division_safety.2
      ⟨"u", some 0, some 0, some 0, some 0⟩
      ⟨"b", "Trendsetter", "", "", some "likes_average_100"⟩
      [⟨"u", none, none, none, some 100⟩] rfl (by decide)).mpr
      (by norm_num [totalLikes])

/-- C9: `initializeBadges` seeds exactly the six catalogued badges
(`posts_count_50`, `eco_points_1000`, `water_saved_200`,
`likes_average_100`, `posts_count_100`, `carbon_reduced_100`, in source
order) when the catalog is observed empty, is a no-op on a non-empty
catalog, and a second sequential run inserts nothing. -/
theorem badge_catalog_seeding :
    (∀ db : DB, db.badges = [] → (initializeBadges db).badges = defaultBadges) ∧
    defaultBadges.map (fun b => b.requirement) =
      [some "posts_count_50", some "eco_points_1000", some "water_saved_200",
       some "likes_average_100", some "posts_count_100", some "carbon_reduced_100"] ∧
    defaultBadges.length = 6 ∧
    (∀ db : DB, db.badges ≠ [] → initializeBadges db = db) ∧
    (∀ db : DB, initializeBadges (initializeBadges db) = initializeBadges db) := by
  refine ⟨?_, by decide, by decide, initializeBadges_of_nonempty, ?_⟩
  · intro db h
    rw [initializeBadges_of_empty db h, h]
    rfl
  · intro db
    by_cases h : db.badges = []
    · rw [initializeBadges_of_empty db h]
      apply initializeBadges_of_nonempty
      rw [h]
      show ([] ++ defaultBadges : List BadgeRec) ≠ []
      decide
    · rw [initializeBadges_of_nonempty db h, initializeBadges_of_nonempty db h]

/-- C9 witness: seeding from an empty catalog yields the six rows; a
catalog holding one row is untouched. -/
theorem badge_catalog_seeding_witness :
    (initializeBadges ⟨[], [], [], []⟩).badges = defaultBadges ∧
    initializeBadges ⟨[], [], [⟨"x", "X", "", "", none⟩], []⟩ =
      ⟨[], [], [⟨"x", "X", "", "", none⟩], []⟩ := by
  constructor
  · exact badge_catalog_seeding.1 ⟨[], [], [], []⟩ rfl
  · exact badge_catalog_seeding.2.2.2.1 ⟨[], [], [⟨"x", "X", "", "", none⟩], []⟩ (by decide)

/-- C10: a catalog badge whose requirement is NULL or not one of the six
recognised identifiers makes the `switch` fall through with `shouldAward`
still false, so `checkAndAwardBadges` never inserts an award for it:
every award row it appends references a badge of the catalog whose
requirement is recognised. -/
theorem unrecognized_requirement_not_awarded :
    (∀ (user : UserRec) (ps : List PostRec) (b : BadgeRec),
       recognizedRequirement b.requirement = false → shouldAward user ps b = false) ∧
    (∀ (db : DB) (uid : String), ∃ L,
       (checkAndAwardBadges db uid).userBadges = db.userBadges ++ L ∧
       ∀ ub ∈ L, ∃ b ∈ db.badges, ub.badgeId = b.id ∧
         recognizedRequirement b.requirement = true) := by
  refine ⟨unrecognized_requirement_never_awards, ?_⟩
  intro db uid
  unfold checkAndAwardBadges
  split
  · exact ⟨[], (List.append_nil _).symm, by simp⟩
  · rename_i user hu
    refine ⟨_, rfl, ?_⟩
    intro ub hub
    rw [List.mem_map] at hub
    obtain ⟨b, hbmem, hb⟩ := hub
    rw [List.mem_filter] at hbmem
    obtain ⟨hbadges, hcond⟩ := hbmem
    rw [Bool.and_eq_true] at hcond
    refine ⟨b, hbadges, by rw [← hb], ?_⟩
    cases hbool : recognizedRequirement b.requirement
    · exact absurd hcond.2
        (by rw [unrecognized_requirement_never_awards user (getPostsByUser db uid) b hbool]; decide)
    · rfl

/-- C10 witness: a badge with requirement "follower_count_10" is never
awarded, and an evaluation over a catalog holding only that badge inserts
no award row. -/
theorem unrecognized_requirement_not_awarded_witness :
    shouldAward ⟨"u", some 100000, some 100000, some 100000, some 100000⟩
        (List.replicate 200 ⟨"u", none, none, none, some 100000⟩)
        ⟨"b", "Influencer", "", "", some "follower_count_10"⟩ = false ∧
    ∃ L, (checkAndAwardBadges
        ⟨[⟨"u", some 100000, some 100000, some 100000, some 100000⟩], [],
         [⟨"b", "Influencer", "", "", some "follower_count_10"⟩], []⟩ "u").userBadges
        = ([] : List UserBadgeRec) ++ L ∧
      ∀ ub ∈ L, ∃ b ∈ [(⟨"b", "Influencer", "", "", some "follower_count_10"⟩ : BadgeRec)],
        ub.badgeId = b.id ∧ recognizedRequirement b.requirement = true := by
  constructor
  · exact unrecognized_requirement_not_awarded.1
      ⟨"u", some 100000, some 100000, some 100000, some 100000⟩
      (List.replicate 200 ⟨"u", none, none, none, some 100000⟩)
      ⟨"b", "Influencer", "", "", some "follower_count_10"⟩ (by decide)
  · exact unrecognized_requirement_not_awarded.2
      ⟨[⟨"u", some 100000, some 100000, some 100000, some 100000⟩], [],
       [⟨"b", "Influencer", "", "", some "follower_count_10"⟩], []⟩ "u"

/-- C5 counterexample: the claim "when the fields are present, the
supplied values are used" fails at the concrete inbound field
`ecoPoints = "0"`: the supplied value parses to 0, yet the handler's
`parseInt(req.body.ecoPoints) || 50` persists 50, because 0 is falsy. -/
theorem contribution_defaulting_counterexample :
    parseIntJS "0" = some 0 ∧ routeEcoPoints (some "0") = 50 ∧ (50 : Int) ≠ 0 := by
  refine ⟨by decide, by decide, by decide⟩

/-- C5 (amended): absent contribution fields get the defaults
(ecoPoints 50, waterSaved "2.5", carbonReduced "1.2"); a present
ecoPoints is used only when it parses to a nonzero integer — a value
parsing to 0 or NaN falls back to 50 — and a present waterSaved or
carbonReduced is used only when it is a non-empty string, the empty
string falling back to the default. -/
theorem contribution_defaulting :
    routeEcoPoints none = 50 ∧
    (∀ s n, parseIntJS s = some n → n ≠ 0 → routeEcoPoints (some s) = n) ∧
    (∀ s, parseIntJS s = none → routeEcoPoints (some s) = 50) ∧
    (∀ s, parseIntJS s = some 0 → routeEcoPoints (some s) = 50) ∧
    routeWaterSaved none = "2.5" ∧
    (∀ s, s ≠ "" → routeWaterSaved (some s) = s) ∧
    routeWaterSaved (some "") = "2.5" ∧
    routeCarbonReduced none = "1.2" ∧
    (∀ s, s ≠ "" → routeCarbonReduced (some s) = s) ∧
    routeCarbonReduced (some "") = "1.2" := by
  refine ⟨rfl, ?_, ?_, ?_, rfl, ?_, rfl, rfl, ?_, rfl⟩
  · intro s n h hn
    show (match parseIntJS s with
      | none => (50 : Int)
      | some n => if n == 0 then 50 else n) = n
    rw [h]
    simp [hn]
  · intro s h
    show ((match parseIntJS s with
      | none => 50
      | some n => if n == 0 then 50 else n) : Int) = 50
    rw [h]
  · intro s h
    show ((match parseIntJS s with
      | none => 50
      | some n => if n == 0 then 50 else n) : Int) = 50
    rw [h]
    rfl
  · intro s h
    unfold routeWaterSaved
    simp [h]
  · intro s h
    unfold routeCarbonReduced
    simp [h]

/-- C5 witness: a present nonzero ecoPoints and non-empty decimal strings
are passed through unchanged. -/
theorem contribution_defaulting_witness :
    routeEcoPoints (some "75") = 75 ∧ routeWaterSaved (some "3.4") = "3.4" ∧
    routeCarbonReduced (some "0.7") = "0.7" := by
  refine ⟨contribution_defaulting.2.1 "75" 75 (by decide) (by decide),
    contribution_defaulting.2.2.2.2.2.1 "3.4" (by decide),
    contribution_defaulting.2.2.2.2.2.2.2.2.1 "0.7" (by decide)⟩
/-- C6: when the post's userId references no existing user, `createPost`
persists the post row and returns, leaving every user row (all totals)
and the award set untouched: the accumulation and badge steps are
silently skipped. -/
theorem missing_user_skips_ledger (db : DB) (p : InsertPost)
    (h : getUser db p.userId = none) :
    (createPost db p).users = db.users ∧
    (createPost db p).userBadges = db.userBadges ∧
    (createPost db p).posts = db.posts ++ [mkPost p] := by
  have hcp : createPost db p = { db with posts := db.posts ++ [mkPost p] } := by
    unfold createPost
    have h1 : getUser { db with posts := db.posts ++ [mkPost p] } p.userId = none := h
    simp only [h1]
  rw [hcp]
  exact ⟨rfl, rfl, rfl⟩

/-- C6 witness: creating a post for the unknown owner "ghost" in a store
with one unrelated user changes no user row and no award row. -/
theorem missing_user_skips_ledger_witness :
    (createPost ⟨[⟨"real", some 7, some 1, some 1, some 2⟩], [],
        defaultBadges, []⟩ ⟨"ghost", some 50, some 1, some 1⟩).users
      = [⟨"real", some 7, some 1, some 1, some 2⟩] ∧
    (createPost ⟨[⟨"real", some 7, some 1, some 1, some 2⟩], [],
        defaultBadges, []⟩ ⟨"ghost", some 50, some 1, some 1⟩).userBadges = [] ∧
    (createPost ⟨[⟨"real", some 7, some 1, some 1, some 2⟩], [],
        defaultBadges, []⟩ ⟨"ghost", some 50, some 1, some 1⟩).posts
      = [] ++ [mkPost ⟨"ghost", some 50, some 1, some 1⟩] :=
  missing_user_skips_ledger
    ⟨[⟨"real", some 7, some 1, some 1, some 2⟩], [], defaultBadges, []⟩
    ⟨"ghost", some 50, some 1, some 1⟩ (by decide)

/-- The user of the C4 scenario: all totals at zero. -/
def c4User : UserRec := ⟨"u1", some 0, some 0, some 0, some 0⟩

/-- The C4 scenario store: that single user, no posts, the seeded
catalog, no awards. -/
def c4Db : DB := initializeBadges ⟨[c4User], [], [], []⟩

/-- The C4 contribution: ecoPoints 50, waterSaved 2.5, carbonReduced 1.2. -/
def c4Post : InsertPost := ⟨"u1", some 50, some (5 / 2), some (6 / 5)⟩

/-- C4: from all-zero totals, one post contributing
{ecoPoints 50, waterSaved "2.5", carbonReduced "1.2"} leaves the user at
{50, 2.5, 1.2, itemsReused 1}; the two decimal accumulators read back
from their numeric(10,2) columns as "2.50" and "1.20"; and no badge is
awarded since no threshold is met. -/
theorem single_post_scenario :
    getUser (createPost c4Db c4Post) "u1" =
      some ⟨"u1", some 50, some (5 / 2), some (6 / 5), some 1⟩ ∧
    (createPost c4Db c4Post).userBadges = [] ∧
    renderScale2 (5 / 2) = "2.50" ∧ renderScale2 (6 / 5) = "1.20" ∧
    parseFloatQ "2.5" = some (5 / 2) ∧ parseFloatQ "1.2" = some (6 / 5) := by
  refine ⟨?_, ?_, ?_, ?_, ?_, ?_⟩
  · norm_num [createPost, c4Db, c4Post, c4User, initializeBadges, defaultBadges, mkPost,
      updateUserStats, applyPatch, checkAndAwardBadges, getUser, getUserBadges,
      getPostsByUser, shouldAward, totalLikes]
  · norm_num [createPost, c4Db, c4Post, c4User, initializeBadges, defaultBadges, mkPost,
      updateUserStats, applyPatch, checkAndAwardBadges, getUser, getUserBadges,
      getPostsByUser, shouldAward, totalLikes]
  · norm_num [renderScale2, toHundredths]
    decide
  · norm_num [renderScale2, toHundredths]
    decide
  · have h : parseFloatQ "2.5" =
        some ((1 : ℚ) * (((2 : ℕ) : ℚ) + ((5 : ℕ) : ℚ) / (10 : ℚ) ^ (1 : ℕ))) := rfl
    rw [h]
    norm_num
  · have h : parseFloatQ "1.2" =
        some ((1 : ℚ) * (((1 : ℕ) : ℚ) + ((2 : ℕ) : ℚ) / (10 : ℚ) ^ (1 : ℕ))) := rfl
    rw [h]
    norm_num
/-- Folding `createPost` over a list of contributions accumulates each
stats component and counts the posts. -/
lemma foldl_createPost_totals (uid : String) :
    ∀ (ps : List InsertPost) (db : DB) (u : UserRec),
      getUser db uid = some u →
      (∀ p ∈ ps, p.userId = uid) →
      ∃ u1, getUser (ps.foldl createPost db) uid = some u1 ∧
        u1.ecoPoints.getD 0 =
          u.ecoPoints.getD 0 + (ps.map (fun p => p.ecoPoints.getD 0)).sum ∧
        u1.waterSaved.getD 0 =
          u.waterSaved.getD 0 + (ps.map (fun p => p.waterSaved.getD 0)).sum ∧
        u1.carbonReduced.getD 0 =
          u.carbonReduced.getD 0 + (ps.map (fun p => p.carbonReduced.getD 0)).sum ∧
        u1.itemsReused.getD 0 = u.itemsReused.getD 0 + ps.length := by
  intro ps
  induction ps with
  | nil =>
    intro db u h _
    exact ⟨u, h, by simp, by simp, by simp, by simp⟩
  | cons p ps ih =>
    intro db u h hall
    have hp : p.userId = uid := hall p (List.mem_cons_self p ps)
    have h1 : getUser (createPost db p) uid = some (addStats u p) := by
      rw [← hp] at h ⊢
      exact getUser_createPost_self db p u h
    obtain ⟨u1, hu1, he, hw, hc, hi⟩ :=
      ih (createPost db p) (addStats u p) h1
        (fun q hq => hall q (List.mem_cons_of_mem p hq))
    refine ⟨u1, by simpa using hu1, ?_, ?_, ?_, ?_⟩
    · rw [he]
      show u.ecoPoints.getD 0 + p.ecoPoints.getD 0 + _ = _
      rw [List.map_cons, List.sum_cons, add_assoc]
    · rw [hw]
      show u.waterSaved.getD 0 + p.waterSaved.getD 0 + _ = _
      rw [List.map_cons, List.sum_cons, add_assoc]
    · rw [hc]
      show u.carbonReduced.getD 0 + p.carbonReduced.getD 0 + _ = _
      rw [List.map_cons, List.sum_cons, add_assoc]
    · rw [hi]
      show u.itemsReused.getD 0 + 1 + (ps.length : Int) = _
      rw [List.length_cons]
      push_cast
      ring

/-- C1: a single `createPost` adds the post's contribution to its owner's
totals component-wise and increments items-reused by exactly 1; and for
any sequence of N posts by one user starting from all-zero totals with
non-negative contributions, the final totals are the component-wise sums
of the contributions and items-reused is N. -/
theorem accumulation_correctness :
    (∀ (db : DB) (p : InsertPost) (u : UserRec),
       getUser db p.userId = some u →
       ∃ u1, getUser (createPost db p) p.userId = some u1 ∧
         u1.ecoPoints.getD 0 = u.ecoPoints.getD 0 + p.ecoPoints.getD 0 ∧
         u1.waterSaved.getD 0 = u.waterSaved.getD 0 + p.waterSaved.getD 0 ∧
         u1.carbonReduced.getD 0 = u.carbonReduced.getD 0 + p.carbonReduced.getD 0 ∧
         u1.itemsReused.getD 0 = u.itemsReused.getD 0 + 1) ∧
    (∀ (db : DB) (uid : String) (u0 : UserRec) (ps : List InsertPost),
       getUser db uid = some u0 →
       u0.ecoPoints.getD 0 = 0 → u0.waterSaved.getD 0 = 0 →
       u0.carbonReduced.getD 0 = 0 → u0.itemsReused.getD 0 = 0 →
       (∀ p ∈ ps, p.userId = uid) →
       (∀ p ∈ ps, 0 ≤ p.ecoPoints.getD 0 ∧ 0 ≤ p.waterSaved.getD 0 ∧
         0 ≤ p.carbonReduced.getD 0) →
       ∃ u1, getUser (ps.foldl createPost db) uid = some u1 ∧
         u1.ecoPoints.getD 0 = (ps.map (fun p => p.ecoPoints.getD 0)).sum ∧
         u1.waterSaved.getD 0 = (ps.map (fun p => p.waterSaved.getD 0)).sum ∧
         u1.carbonReduced.getD 0 = (ps.map (fun p => p.carbonReduced.getD 0)).sum ∧
         u1.itemsReused.getD 0 = ps.length) := by
  constructor
  · intro db p u h
    exact ⟨addStats u p, getUser_createPost_self db p u h, rfl, rfl, rfl, rfl⟩
  · intro db uid u0 ps h he0 hw0 hc0 hi0 hall _
    obtain ⟨u1, hu1, he, hw, hc, hi⟩ := foldl_createPost_totals uid ps db u0 h hall
    rw [he0] at he
    rw [hw0] at hw
    rw [hc0] at hc
    rw [hi0] at hi
    exact ⟨u1, hu1, by simpa using he, by simpa using hw, by simpa using hc,
      by simpa using hi⟩

/-- C1 witness: two posts by one user starting from zero accumulate to the
component-wise sums and an items-reused count of 2. -/
theorem accumulation_correctness_witness :
    ∃ u1, getUser
        (([⟨"w1", some 10, some (3 / 2), some 1⟩,
           ⟨"w1", some 5, some (1 / 2), some 2⟩] : List InsertPost).foldl createPost
          ⟨[⟨"w1", some 0, some 0, some 0, some 0⟩], [], [], []⟩) "w1" = some u1 ∧
      u1.ecoPoints.getD 0 =
        (([⟨"w1", some 10, some (3 / 2), some 1⟩,
           ⟨"w1", some 5, some (1 / 2), some 2⟩] : List InsertPost).map
          (fun p => p.ecoPoints.getD 0)).sum ∧
      u1.waterSaved.getD 0 =
        (([⟨"w1", some 10, some (3 / 2), some 1⟩,
           ⟨"w1", some 5, some (1 / 2), some 2⟩] : List InsertPost).map
          (fun p => p.waterSaved.getD 0)).sum ∧
      u1.carbonReduced.getD 0 =
        (([⟨"w1", some 10, some (3 / 2), some 1⟩,
           ⟨"w1", some 5, some (1 / 2), some 2⟩] : List InsertPost).map
          (fun p => p.carbonReduced.getD 0)).sum ∧
      u1.itemsReused.getD 0 =
        ([⟨"w1", some 10, some (3 / 2), some 1⟩,
          ⟨"w1", some 5, some (1 / 2), some 2⟩] : List InsertPost).length :=
  accumulation_correctness.2
    ⟨[⟨"w1", some 0, some 0, some 0, some 0⟩], [], [], []⟩ "w1"
    ⟨"w1", some 0, some 0, some 0, some 0⟩
    [⟨"w1", some 10, some (3 / 2), some 1⟩,
     ⟨"w1", some 5, some (1 / 2), some 2⟩]
    rfl rfl rfl rfl rfl (by decide)
    (by
      intro p hp
      simp only [List.mem_cons, List.not_mem_nil, or_false] at hp
      rcases hp with h | h <;> subst h <;>
        exact ⟨by norm_num, by norm_num, by norm_num⟩)
/-- With catalog primary keys distinct, at most one catalog row carries a
given id. -/
lemma countP_badge_id_le_one (l : List BadgeRec) (hn : (l.map BadgeRec.id).Nodup)
    (bid : String) : l.countP (fun b => b.id == bid) ≤ 1 := by
  have h1 : l.countP (fun b => b.id == bid)
      = (l.map BadgeRec.id).countP (fun x => x == bid) := by
    rw [List.countP_map]
    rfl
  rw [h1, ← List.count_eq_countP]
  exact List.nodup_iff_count_le_one.mp hn bid

/-- If a user holds an award row for a catalog badge, that badge's name
appears in the result of `getUserBadges` (the join resolves the award's
badgeId to the unique catalog row carrying it). -/
lemma name_mem_of_award (db : DB) (uid : String) (b : BadgeRec) (ub : UserBadgeRec)
    (hn : (db.badges.map BadgeRec.id).Nodup)
    (hb : b ∈ db.badges) (hub : ub ∈ db.userBadges)
    (hu1 : ub.userId = uid) (hu2 : ub.badgeId = b.id) :
    b.name ∈ (getUserBadges db uid).map (fun b => b.name) := by
  have hmem : b ∈ getUserBadges db uid := by
    unfold getUserBadges
    rw [List.mem_filterMap]
    refine ⟨ub, List.mem_filter.mpr ⟨hub, by simp [hu1]⟩, ?_⟩
    cases hf : db.badges.find? (fun b2 => b2.id == ub.badgeId) with
    | none =>
      have := List.find?_eq_none.mp hf b hb
      simp [hu2] at this
    | some b2 =>
      have hb2mem : b2 ∈ db.badges := List.mem_of_find?_eq_some hf
      have hid : b2.id = b.id := by
        have h := List.find?_some hf
        simp only [beq_iff_eq] at h
        rw [h, hu2]
      have heq : b2 = b := List.inj_on_of_nodup_map hn hb2mem hb hid
      rw [heq]
  exact List.mem_map.mpr ⟨b, hmem, rfl⟩

/-- The award rows appended by one evaluation never take a (user, badge)
pair past one row. -/
lemma countAwards_append_awards (db : DB) (target : String) (user : UserRec)
    (hn : (db.badges.map BadgeRec.id).Nodup)
    (h1 : ∀ uid bid, countAwards db uid bid ≤ 1)
    (uid bid : String) :
    (db.userBadges ++ (db.badges.filter (fun b =>
        !(((getUserBadges db target).map (fun b => b.name)).contains b.name) &&
          shouldAward user (getPostsByUser db target) b)).map
        (fun b => (⟨target, b.id⟩ : UserBadgeRec))).countP
      (fun ub => ub.userId == uid && ub.badgeId == bid) ≤ 1 := by
  rw [List.countP_append, List.countP_map]
  by_cases ht : target = uid
  · subst ht
    by_cases hex : 0 < db.userBadges.countP
        (fun ub => ub.userId == target && ub.badgeId == bid)
    · have hz : (db.badges.filter (fun b =>
          !(((getUserBadges db target).map (fun b => b.name)).contains b.name) &&
            shouldAward user (getPostsByUser db target) b)).countP
          ((fun ub : UserBadgeRec => ub.userId == target && ub.badgeId == bid) ∘
            (fun b => (⟨target, b.id⟩ : UserBadgeRec))) = 0 := by
        apply List.countP_eq_zero.mpr
        intro b hbf
        rw [List.mem_filter] at hbf
        obtain ⟨hbmem, hbpred⟩ := hbf
        rw [Bool.and_eq_true] at hbpred
        obtain ⟨hnc, _⟩ := hbpred
        simp only [Function.comp, beq_self_eq_true, Bool.true_and, beq_iff_eq]
        intro hbid
        obtain ⟨ub, hubmem, hubp⟩ := List.countP_pos_iff.mp hex
        rw [Bool.and_eq_true] at hubp
        simp only [beq_iff_eq] at hubp
        have hname := name_mem_of_award db target b ub hn hbmem hubmem hubp.1
          (by rw [hubp.2, hbid])
        rw [Bool.not_eq_true'] at hnc
        have hcont : (List.map (fun b => b.name) (getUserBadges db target)).contains b.name
            = true := List.elem_iff.mpr hname
        rw [hcont] at hnc
        cases hnc
      rw [hz]
      have := h1 target bid
      unfold countAwards at this
      omega
    · have hz : db.userBadges.countP
          (fun ub => ub.userId == target && ub.badgeId == bid) = 0 := by
        omega
      rw [hz]
      have hle : (db.badges.filter (fun b =>
          !(((getUserBadges db target).map (fun b => b.name)).contains b.name) &&
            shouldAward user (getPostsByUser db target) b)).countP
          ((fun ub : UserBadgeRec => ub.userId == target && ub.badgeId == bid) ∘
            (fun b => (⟨target, b.id⟩ : UserBadgeRec)))
          ≤ db.badges.countP (fun b => b.id == bid) := by
        have hstep : (db.badges.filter (fun b =>
            !(((getUserBadges db target).map (fun b => b.name)).contains b.name) &&
              shouldAward user (getPostsByUser db target) b)).countP
            ((fun ub : UserBadgeRec => ub.userId == target && ub.badgeId == bid) ∘
              (fun b => (⟨target, b.id⟩ : UserBadgeRec)))
            ≤ (db.badges.filter (fun b =>
            !(((getUserBadges db target).map (fun b => b.name)).contains b.name) &&
              shouldAward user (getPostsByUser db target) b)).countP
            (fun b => b.id == bid) := by
          apply List.countP_mono_left
          intro b _ hb
          simp only [Function.comp, beq_self_eq_true, Bool.true_and] at hb
          exact hb
        exact le_trans hstep
          (List.Sublist.countP_le _ (List.filter_sublist _))
      have := countP_badge_id_le_one db.badges hn bid
      omega
  · have hz : (db.badges.filter (fun b =>
        !(((getUserBadges db target).map (fun b => b.name)).contains b.name) &&
          shouldAward user (getPostsByUser db target) b)).countP
        ((fun ub : UserBadgeRec => ub.userId == uid && ub.badgeId == bid) ∘
          (fun b => (⟨target, b.id⟩ : UserBadgeRec))) = 0 := by
      apply List.countP_eq_zero.mpr
      intro b _
      simp [Function.comp, beq_iff_eq, ht]
    rw [hz]
    have := h1 uid bid
    unfold countAwards at this
    omega

/-- One badge evaluation preserves the at-most-one-award invariant. -/
lemma countAwards_check_le_one (db : DB) (target : String)
    (hn : (db.badges.map BadgeRec.id).Nodup)
    (h1 : ∀ uid bid, countAwards db uid bid ≤ 1)
    (uid bid : String) :
    countAwards (checkAndAwardBadges db target) uid bid ≤ 1 := by
  unfold checkAndAwardBadges
  split
  · exact h1 uid bid
  · rename_i user hu
    exact countAwards_append_awards db target user hn h1 uid bid

/-- C2: provided the badge catalog's primary keys are distinct (the store
generates them) and each (user, badge) pair holds at most one award row,
any sequence of badge evaluations preserves that bound: repeated
qualifying evaluations never insert a second award row for the same
badge, because the evaluator skips every badge whose name the user
already holds. -/
theorem at_most_one_award :
    ∀ (targets : List String) (db : DB),
      (db.badges.map BadgeRec.id).Nodup →
      (∀ uid bid, countAwards db uid bid ≤ 1) →
      ∀ uid bid, countAwards (targets.foldl checkAndAwardBadges db) uid bid ≤ 1 := by
  intro targets
  induction targets with
  | nil =>
    intro db _ h1
    exact h1
  | cons t ts ih =>
    intro db hn h1
    exact ih (checkAndAwardBadges db t)
      (by rw [badges_checkAndAwardBadges]; exact hn)
      (countAwards_check_le_one db t hn h1)

/-- C2 witness: two evaluations for a user holding 1500 eco points over
the seeded catalog leave the (user, Green Icon) pair with at most one
award row. -/
theorem at_most_one_award_witness :
    countAwards ((["u", "u"] : List String).foldl checkAndAwardBadges
      ⟨[⟨"u", some 1500, some 0, some 0, some 0⟩], [], defaultBadges, []⟩)
      "u" "badge-2" ≤ 1 :=
  at_most_one_award ["u", "u"]
    ⟨[⟨"u", some 1500, some 0, some 0, some 0⟩], [], defaultBadges, []⟩
    (by decide) (fun uid bid => by simp [countAwards]) "u" "badge-2"
/-- Extending the award table only appends to the result of the
user-badges join. -/
lemma getUserBadges_append (db : DB) (uid : String) (L : List UserBadgeRec) :
    getUserBadges { db with userBadges := db.userBadges ++ L } uid
      = getUserBadges db uid ++ (L.filter (fun ub => ub.userId == uid)).filterMap
          (fun ub => db.badges.find? (fun b => b.id == ub.badgeId)) := by
  unfold getUserBadges
  rw [List.filter_append, List.filterMap_append]

/-- C3: with distinct catalog primary keys, running the badge evaluator a
second time with no intervening state change appends zero new award rows:
every badge whose predicate holds was either already held (and is skipped
by name) or was just awarded (and its name now appears in the user's
join), and the predicates read the same unchanged totals and posts. -/
theorem idempotent_evaluation (db : DB) (uid : String)
    (hn : (db.badges.map BadgeRec.id).Nodup) :
    (checkAndAwardBadges (checkAndAwardBadges db uid) uid).userBadges
      = (checkAndAwardBadges db uid).userBadges := by
  cases hu : getUser db uid with
  | none =>
    have hid : checkAndAwardBadges db uid = db := by
      unfold checkAndAwardBadges
      rw [hu]
    rw [hid, hid]
  | some user =>
    have hdb1 : checkAndAwardBadges db uid = { db with userBadges := db.userBadges ++
        ((db.badges.filter (fun b =>
          !(((getUserBadges db uid).map (fun b => b.name)).contains b.name) &&
            shouldAward user (getPostsByUser db uid) b)).map
          (fun b => (⟨uid, b.id⟩ : UserBadgeRec))) } := by
      unfold checkAndAwardBadges
      rw [hu]
    rw [hdb1]
    have hu1 : getUser { db with userBadges := db.userBadges ++
        ((db.badges.filter (fun b =>
          !(((getUserBadges db uid).map (fun b => b.name)).contains b.name) &&
            shouldAward user (getPostsByUser db uid) b)).map
          (fun b => (⟨uid, b.id⟩ : UserBadgeRec))) } uid = some user := hu
    unfold checkAndAwardBadges
    simp only [hu1]
    set newL : List UserBadgeRec := (db.badges.filter (fun b =>
        !(((getUserBadges db uid).map (fun b => b.name)).contains b.name) &&
          shouldAward user (getPostsByUser db uid) b)).map
        (fun b => (⟨uid, b.id⟩ : UserBadgeRec)) with hnewL
    have hfil : (List.filter
        (fun b =>
          !(List.map (fun b => b.name)
            (getUserBadges { db with userBadges := db.userBadges ++ newL } uid)).contains
              b.name &&
          shouldAward user
            (getPostsByUser { db with userBadges := db.userBadges ++ newL } uid) b)
        db.badges) = [] := by
      apply List.filter_eq_nil_iff.mpr
      intro b hb hcontra
      rw [Bool.and_eq_true] at hcontra
      obtain ⟨hnc, hsa⟩ := hcontra
      rw [Bool.not_eq_true'] at hnc
      have hsa0 : shouldAward user (getPostsByUser db uid) b = true := hsa
      have hext : getUserBadges { db with userBadges := db.userBadges ++ newL } uid
          = getUserBadges db uid ++ (newL.filter (fun ub => ub.userId == uid)).filterMap
              (fun ub => db.badges.find? (fun b => b.id == ub.badgeId)) :=
        getUserBadges_append db uid newL
      have hnc0 : (List.map (fun b => b.name) (getUserBadges db uid)).contains b.name
          = false := by
        cases hc : (List.map (fun b => b.name) (getUserBadges db uid)).contains b.name
        · rfl
        · have hmem0 : b.name ∈ List.map (fun b => b.name) (getUserBadges db uid) :=
            List.elem_iff.mp hc
          have hmem1 : b.name ∈ List.map (fun b => b.name)
              (getUserBadges { db with userBadges := db.userBadges ++ newL } uid) := by
            rw [hext, List.map_append]
            exact List.mem_append_left _ hmem0
          have hcc : (List.map (fun b => b.name)
              (getUserBadges { db with userBadges := db.userBadges ++ newL } uid)).contains
                b.name = true := List.elem_iff.mpr hmem1
          rw [hcc] at hnc
          cases hnc
      have hbmemf : b ∈ List.filter
          (fun b => !(List.map (fun b => b.name) (getUserBadges db uid)).contains b.name &&
            shouldAward user (getPostsByUser db uid) b) db.badges :=
        List.mem_filter.mpr ⟨hb, by rw [hnc0, hsa0]; rfl⟩
      have hubmem : (⟨uid, b.id⟩ : UserBadgeRec) ∈ db.userBadges ++ newL := by
        apply List.mem_append_right
        rw [hnewL]
        exact List.mem_map.mpr ⟨b, hbmemf, rfl⟩
      have hname := name_mem_of_award
        { db with userBadges := db.userBadges ++ newL } uid b ⟨uid, b.id⟩ hn hb hubmem rfl rfl
      have hcc : (List.map (fun b => b.name)
          (getUserBadges { db with userBadges := db.userBadges ++ newL } uid)).contains
            b.name = true := List.elem_iff.mpr hname
      rw [hcc] at hnc
      cases hnc
    rw [hfil, List.map_nil, List.append_nil]
/-- C3 witness: re-running the evaluator for a user holding 1500 eco
points over the seeded catalog adds no award rows the second time. -/
theorem idempotent_evaluation_witness :
    (checkAndAwardBadges (checkAndAwardBadges
        ⟨[⟨"u", some 1500, some 0, some 0, some 0⟩], [], defaultBadges, []⟩ "u") "u").userBadges
      = (checkAndAwardBadges
        ⟨[⟨"u", some 1500, some 0, some 0, some 0⟩], [], defaultBadges, []⟩ "u").userBadges :=
  idempotent_evaluation
    ⟨[⟨"u", some 1500, some 0, some 0, some 0⟩], [], defaultBadges, []⟩ "u" (by decide)

end ThriftApp
